import Mathlib

/-!
Verification development for the hitman HTTP request runner.

The embedding below models, in Lean, the resolution core of the program:
the layered environment, the placeholder substitution engine, the
interactive backfill protocol driven by the full-screen UI state machine
(src/ui/app.rs), and the orchestration in main.rs (watch mode, request
discovery, user-cancellation handling).

Source files present in the repository tree are embedded directly
(src/main.rs and src/ui/app.rs).  Modules whose sources are not in the
tree (substitute.rs, env.rs, extract.rs, prompt.rs, request.rs and the
UI widget components) are modelled from the specification; every such
definition carries a doc comment starting with "Modelled from the spec".
-/

namespace Hitman

/-- Modelled from the spec: the subset of TOML values the resolution core
manipulates (env.rs and substitute.rs sources are absent).  Scalars are
strings, integers and booleans; an array models a sequence of candidate
values; a table models a multi-field candidate with named fields. -/
inductive Value where
  | str (s : String)
  | int (n : Int)
  | bool (b : Bool)
  | array (vs : List Value)
  | table (kvs : List (String × Value))

/-- Field lookup in a table, mirroring `toml::Table::get`. -/
def tableGet (t : List (String × Value)) (k : String) : Option Value :=
  (t.find? (fun p => p.1 == k)).map (fun p => p.2)

mutual

/-- Modelled from the spec: the textual rendering of a TOML value as the
external toml library's Display produces it (strings are rendered quoted,
scalars as their literal text, compound values as inline TOML).  This is
the `value.to_string()` used by src/ui/app.rs. -/
def valueToString : Value → String
  | .str s => "\"" ++ s ++ "\""
  | .int n => toString n
  | .bool b => if b then "true" else "false"
  | .array vs => "[" ++ valueListToString vs ++ "]"
  | .table kvs => "\x7b " ++ tableToString kvs ++ " \x7d"

/-- Comma-separated rendering of an array's elements. -/
def valueListToString : List Value → String
  | [] => ""
  | [v] => valueToString v
  | v :: vs => valueToString v ++ ", " ++ valueListToString vs

/-- Comma-separated rendering of a table's key/value pairs. -/
def tableToString : List (String × Value) → String
  | [] => ""
  | [(k, v)] => k ++ " = " ++ valueToString v
  | (k, v) :: kvs => k ++ " = " ++ valueToString v ++ ", " ++ tableToString kvs

end

/-- An environment: a precedence-ordered association list from variable
name to value; the earliest binding for a key wins (highest precedence
first), mirroring the merged four-layer mapping of the spec. -/
abbrev Env := List (String × Value)

/-- Lookup in the merged environment; the first (highest-precedence)
binding for the key wins entirely. -/
def lookupEnv (env : Env) (k : String) : Option Value :=
  (env.find? (fun p => p.1 == k)).map (fun p => p.2)

/-- Modelled from the spec: `load_env` (env.rs source absent) builds the
merged environment for one substitution attempt.  `base` is the merge of
layers 2-4 for the request file; the explicit per-run overrides are
layered on top with the highest precedence, a later override for the same
key replacing an earlier one (insertion into a table). -/
def load_env (base : Env) (options : List (String × String)) : Env :=
  (options.map (fun p => (p.1, Value.str p.2))).reverse ++ base

/-- Modelled from the spec: a request template after scanning, as a list
of spans — literal text spans and placeholder spans `\x7b\x7bname\x7d\x7d` or
`\x7b\x7bname:-fallback\x7d\x7d` (substitute.rs source absent).  The left-to-right
scan of the spec is the list order. -/
inductive Tok where
  | lit (s : String)
  | placeholder (name : String) (fallback : Option String)

/-- The structured substitution failures, mirroring the `SubstituteError`
variants matched by src/ui/app.rs (try_request); `otherError` stands for
the remaining variants reached by its catch-all arm. -/
inductive SubstituteError where
  | valueNotFound (key : String) (fallback : Option String)
  | multipleValuesFound (key : String) (values : List Value)
  | otherError (msg : String)

/-- Prepends resolved text to the remainder's outcome. -/
def withText (s : String) : Except SubstituteError String → Except SubstituteError String
  | .ok r => .ok (s ++ r)
  | .error e => .error e

/-- Modelled from the spec: the substitution engine (substitute.rs source
absent).  Scan left to right; the first placeholder not bound anywhere
yields `valueNotFound` with its inline fallback; the first placeholder
bound to a sequence of candidates yields `multipleValuesFound` with the
candidates in their original order; a scalar is substituted as its text
and the scan continues; a table value is refused as unsupported.  Only
when every placeholder resolves to a scalar does the engine succeed. -/
def substitute : List Tok → Env → Except SubstituteError String
  | [], _ => .ok ""
  | .lit s :: rest, env => withText s (substitute rest env)
  | .placeholder k fb :: rest, env =>
    match lookupEnv env k with
    | none => .error (.valueNotFound k fb)
    | some (.array vs) => .error (.multipleValuesFound k vs)
    | some (.table _) => .error (.otherError ("unsupported value for " ++ k))
    | some (.str s) => withText s (substitute rest env)
    | some (.int n) => withText (toString n) (substitute rest env)
    | some (.bool b) => withText (if b then "true" else "false") (substitute rest env)

/-! The full-screen UI state machine (src/ui/app.rs). -/

/-- The state of a pending-value popup, mirroring `PendingState` in
src/ui/app.rs.  The widget components themselves are external to the
embedding; the prompt state records the fallback it was seeded with
(`Prompt::new(..).with_fallback(fallback)`), the select state records the
candidate values it was built from (`Select::new(.., values)`). -/
inductive PendingState where
  | prompt (fallback : Option String)
  | select (values : List Value)

/-- Mirrors `AppState` in src/ui/app.rs.  The `RunningRequest` join
handle and the `SelectTarget` component are tracked separately in the
world model below. -/
inductive AppState where
  | idle
  | pendingValue (filePath : String) (key : String)
      (pendingOptions : List (String × String)) (pendingState : PendingState)
  | runningRequest
  | selectTarget

/-- Mirrors `AskForValueParams` in src/ui/app.rs. -/
inductive AskForValueParams where
  | prompt (fallback : Option String)
  | select (values : List Value)

/-- Mirrors `Intent` in src/ui/app.rs. -/
inductive Intent where
  | quit
  | prepareRequest (filePath : String) (options : List (String × String))
  | sendRequest (filePath : String) (preparedRequest : String)
  | askForValue (key : String) (filePath : String)
      (pendingOptions : List (String × String)) (params : AskForValueParams)
  | changeState (s : AppState)
  | selectTarget
  | acceptSelectTarget (s : String)
  | editRequest
  | showError (msg : String)

/-- Outcome of a select component for one event, mirroring
`SelectIntent` (abort or accept a chosen item). -/
inductive SelOutcome (α : Type) where
  | abort
  | accept (v : α)

/-- Outcome of the prompt component for one event, mirroring
`PromptIntent` (abort or accept the entered text). -/
inductive PromptOutcome where
  | abort
  | accept (v : String)

/-- Mirrors the `KeyMapping` variants App::handle_event dispatches on. -/
inductive KeyMapping where
  | editor
  | abort
  | selectTargetKey
  | noMapping

/-- Modelled from the spec: one terminal event as App::handle_event
consumes it.  The widget components' sources are absent, so the outcome
each component would produce for this event is part of the event value:
`promptOut` is what the prompt component yields, `selectValueOut` what
the pending-value select yields, `requestSelOut` what the request
selector yields, `targetSelOut` what the target select yields, and
`keyMapping` is `mapkey` of the event.  `keyPress` is whether the event
is a key-press (the only kind handled). -/
structure EventInput where
  keyPress : Bool
  promptOut : Option PromptOutcome
  selectValueOut : Option (SelOutcome Value)
  requestSelOut : Option (SelOutcome String)
  targetSelOut : Option (SelOutcome String)
  keyMapping : KeyMapping

/-- Mirrors the candidate-to-text extraction inlined in
App::handle_event (src/ui/app.rs lines 390-399): a table candidate
substitutes its "value" field (a string field is taken verbatim, any
other field its textual form, a missing field is an error); any other
candidate substitutes its own textual form. -/
def chosenValue (key : String) : Value → Except String String
  | .table t =>
    match tableGet t "value" with
    | some (.str v) => .ok v
    | some v => .ok (valueToString v)
    | none => .error ("Replacement not found: " ++ key)
  | other => .ok (valueToString other)

/-- Mirrors `impl SelectItem for Value` (src/ui/app.rs lines 607-618):
the display label of a candidate is its "name" field when it is a table
(a string field verbatim, another field as text, the whole table's text
when absent), else the candidate's own textual form. -/
def selectItemText : Value → String
  | .table t =>
    match tableGet t "name" with
    | some (.str v) => v
    | some v => valueToString v
    | none => valueToString (.table t)
  | other => valueToString other

/-- Mirrors `App::handle_event` (src/ui/app.rs lines 365-492): only
key-press events are handled; the branch taken depends on the current
state.  In `pendingValue` the active component's outcome either aborts
back to idle or accepts a value, which is appended to the pending
options before re-preparing the request.  In `idle` an accepted request
selection prepares that request with empty options, otherwise the key
mapping is consulted.  In `runningRequest` only the abort key is
accepted (the join handle is aborted by the caller).  In `selectTarget`
the component's outcome aborts or accepts a target. -/
def handle_event (s : AppState) (e : EventInput) : Option Intent :=
  if e.keyPress then
    match s with
    | .pendingValue fp k opts ps =>
      match ps with
      | .select _ =>
        match e.selectValueOut with
        | some .abort => some (.changeState .idle)
        | some (.accept sel) =>
          match chosenValue k sel with
          | .ok v => some (.prepareRequest fp (opts ++ [(k, v)]))
          | .error msg => some (.showError msg)
        | none => none
      | .prompt _ =>
        match e.promptOut with
        | some .abort => some (.changeState .idle)
        | some (.accept v) => some (.prepareRequest fp (opts ++ [(k, v)]))
        | none => none
    | .idle =>
      match e.requestSelOut with
      | some (.accept fp) => some (.prepareRequest fp [])
      | _ =>
        match e.keyMapping with
        | .editor => some .editRequest
        | .abort => some .quit
        | .selectTargetKey => some .selectTarget
        | .noMapping => none
    | .runningRequest =>
      match e.keyMapping with
      | .abort => some (.changeState .idle)
      | _ => none
    | .selectTarget =>
      match e.targetSelOut with
      | some .abort => some (.changeState .idle)
      | some (.accept t) => some (.acceptSelectTarget t)
      | none => none
  else none

/-- The context a UI session runs against: the template of each request
file (the scanned content `read_to_string` returns) and the merged
lower environment layers `load_env` produces for it.  Both are total
maps, modelling a session where the files exist and parse. -/
structure Ctx where
  files : String → List Tok
  baseEnv : String → Env

/-- Mirrors `App::try_request` (src/ui/app.rs lines 290-327): load the
environment with the accumulated options, substitute the template, and
turn the outcome into the next intent — success sends the prepared
request, `MultipleValuesFound` asks for a choice among the candidates,
`ValueNotFound` asks for a prompted value seeded with the fallback, any
other error is shown. -/
def try_request (ctx : Ctx) (fp : String) (options : List (String × String)) :
    Option Intent :=
  match substitute (ctx.files fp) (load_env (ctx.baseEnv fp) options) with
  | .ok prepared => some (.sendRequest fp prepared)
  | .error (.multipleValuesFound key values) =>
      some (.askForValue key fp options (.select values))
  | .error (.valueNotFound key fallback) =>
      some (.askForValue key fp options (.prompt fallback))
  | .error (.otherError msg) => some (.showError msg)

/-- The observable world of one UI session: the application state, the
number of spawned transport tasks currently alive (the join handle of
`RunningRequest`), the quit flag, the status-line error and the active
target. -/
structure World where
  state : AppState
  inFlight : Nat
  shouldQuit : Bool
  errorMsg : Option String
  target : String

/-- Mirrors `App::dispatch` (src/ui/app.rs lines 173-272) on the world
model.  `sendRequest` spawns the transport task (one more handle in
flight) and moves to `RunningRequest`; `askForValue` builds the popup
component and moves to `pendingValue`; `changeState` clears the error;
`prepareRequest` defers to `try_request`; `acceptSelectTarget` persists
the target; `editRequest` only drives the external editor. -/
def dispatch (ctx : Ctx) (w : World) : Intent → World × Option Intent
  | .quit => ({ w with shouldQuit := true }, none)
  | .changeState s => ({ w with errorMsg := none, state := s }, none)
  | .prepareRequest fp opts => (w, try_request ctx fp opts)
  | .sendRequest _ _ =>
      ({ w with inFlight := w.inFlight + 1 }, some (.changeState .runningRequest))
  | .askForValue key fp opts params =>
      match params with
      | .select vs =>
          (w, some (.changeState (.pendingValue fp key opts (.select vs))))
      | .prompt fb =>
          (w, some (.changeState (.pendingValue fp key opts (.prompt fb))))
  | .selectTarget => (w, some (.changeState .selectTarget))
  | .acceptSelectTarget s => ({ w with target := s }, some (.changeState .idle))
  | .editRequest => (w, none)
  | .showError msg => ({ w with errorMsg := some msg }, none)

/-- The intent loop of `App::run` (src/ui/app.rs lines 158-165):
dispatch intents until none is pending.  Every chain the code can
produce is at most three dispatches long, so the fuel is never
exhausted. -/
def runChain (ctx : Ctx) : Nat → World → Option Intent → World
  | _, w, none => w
  | 0, w, some _ => w
  | fuel + 1, w, some i =>
    let p := dispatch ctx w i
    runChain ctx fuel p.1 p.2

/-- Mirrors `App::handle_event` together with its `handle.abort()` side
effect in the `RunningRequest` branch (src/ui/app.rs lines 468-473): on
the abort key the in-flight handle is aborted (one fewer task alive)
before the state returns to idle. -/
def handle_event_w (w : World) (e : EventInput) : World × Option Intent :=
  match w.state with
  | .runningRequest =>
    if e.keyPress then
      match e.keyMapping with
      | .abort => ({ w with inFlight := w.inFlight - 1 }, some (.changeState .idle))
      | _ => (w, none)
    else (w, none)
  | _ => (w, handle_event w.state e)

/-- One iteration of the event half of `App::run`: read one event,
handle it, and run the resulting intent chain to exhaustion. -/
def processEvent (ctx : Ctx) (w : World) (e : EventInput) : World :=
  let p := handle_event_w w e
  runChain ctx 8 p.1 p.2

/-- The completion half of `App::run` (src/ui/app.rs lines 148-154): a
finished transport task is awaited and the state returns to idle. -/
def completeRun (w : World) : World :=
  match w.state with
  | .runningRequest => { w with state := .idle, inFlight := w.inFlight - 1 }
  | _ => w

/-- The world `App::new` starts a session in: idle, no task in flight,
no error, the persisted target. -/
def initWorld (target : String) : World :=
  { state := .idle, inFlight := 0, shouldQuit := false, errorMsg := none,
    target := target }

/-- The worlds a UI session can reach: the initial world, the result of
processing any event, and the result of observing a finished task. -/
inductive Reachable (ctx : Ctx) : World → Prop
  | init (target : String) : Reachable ctx (initWorld target)
  | event {w : World} (e : EventInput) :
      Reachable ctx w → Reachable ctx (processEvent ctx w e)
  | complete {w : World} :
      Reachable ctx w → Reachable ctx (completeRun w)

/-- The in-flight invariant: exactly one transport task is alive in
state `RunningRequest` and none in any other state. -/
def flightInv (w : World) : Prop :=
  w.inFlight = (match w.state with | .runningRequest => 1 | _ => 0)

/-! The background transport task (make_request in src/ui/app.rs). -/

/-- The outcomes of the external calls one execution of `make_request`
makes, in order: the transport call (`do_request`), the structured
decode of the response body (`res.json()`, `none` when the body is not
decodable), and — the sources of env.rs and extract.rs being absent —
the outcomes of `load_env`, `extract_variables` and `update_data` as
observed at their call sites. -/
structure RunInput where
  transport : Except String Unit
  decoded : Option Value
  envLoad : Except String Unit
  extracted : Except String (List (String × String))
  persisted : Except String Unit

/-- Mirrors `make_request` (src/ui/app.rs lines 568-605): a transport
error propagates; a non-decodable body skips extraction entirely and
the run succeeds; a decodable body reloads the environment, extracts
variables and persists them, each step's error propagating through `?`
as the task's result.  Returns the run's result together with the pairs
written to the persisted layer. -/
def make_request (i : RunInput) : Except String Unit × List (String × String) :=
  match i.transport with
  | .error e => (.error e, [])
  | .ok _ =>
    match i.decoded with
    | none => (.ok (), [])
    | some _ =>
      match i.envLoad with
      | .error e => (.error e, [])
      | .ok _ =>
        match i.extracted with
        | .error e => (.error e, [])
        | .ok vars =>
          match i.persisted with
          | .error e => (.error e, [])
          | .ok _ => (.ok (), vars)

/-- The await-point segmentation of `make_request`: the code before the
transport await (client build, request formatting), the code between the
transport await and the body-decode await (response header formatting),
and the final synchronous segment (body formatting, environment reload,
extraction, persistence, and returning the result). -/
inductive TaskSegment where
  | beforeTransport
  | beforeDecode
  | afterDecode

/-- The pairs a segment writes to the persisted layer: `update_data` is
called only in the final segment (src/ui/app.rs lines 598-601). -/
def segmentWrites (i : RunInput) : TaskSegment → List (String × String)
  | .afterDecode => (make_request i).2
  | _ => []

/-- Whether a segment runs the extraction step: `extract_variables` is
called only in the final segment (src/ui/app.rs line 600). -/
def segmentExtracts : TaskSegment → Bool
  | .afterDecode => true
  | _ => false

/-- Whether the task completes (produces its result) in a segment: the
result is returned at the end of the final segment. -/
def segmentCompletes : TaskSegment → Bool
  | .afterDecode => true
  | _ => false

/-- The await points at which `JoinHandle::abort` can take effect: a
tokio task is cancelled at an await point, never inside a synchronous
segment. -/
inductive CancelPoint where
  | atTransportAwait
  | atDecodeAwait

/-- The segments an execution of the task actually runs: all of them
when never cancelled, the strict prefix up to the cancellation's await
point otherwise. -/
def executedSegments : Option CancelPoint → List TaskSegment
  | some .atTransportAwait => [.beforeTransport]
  | some .atDecodeAwait => [.beforeTransport, .beforeDecode]
  | none => [.beforeTransport, .beforeDecode, .afterDecode]

/-- All pairs an execution writes to the persisted layer. -/
def taskWrites (i : RunInput) (c : Option CancelPoint) : List (String × String) :=
  ((executedSegments c).map (segmentWrites i)).flatten

/-- Whether an execution ran the extraction step. -/
def taskExtracts (c : Option CancelPoint) : Bool :=
  (executedSegments c).any segmentExtracts

/-- Whether an execution completed with a result. -/
def taskCompleted (c : Option CancelPoint) : Bool :=
  (executedSegments c).any segmentCompletes

/-! Watch mode (src/main.rs watch_mode, lines 142-163). -/

/-- The kind of a filesystem notification: watch_mode reacts only to
modification events. -/
inductive FsEventKind where
  | modify
  | other
  deriving DecidableEq

/-- The state of the tokio mpsc channel of capacity one created by
watch_mode: at most one event sits in the buffer; a sender that finds
the buffer full blocks in `blocking_send` until the receiver frees
capacity, so further events wait in `blocked` (in arrival order) rather
than being dropped. -/
structure ChanState where
  buffer : Option FsEventKind
  blocked : List FsEventKind
  deriving DecidableEq

/-- A send on the channel (the watcher callback's `blocking_send`): it
fills the free buffer, or joins the queue of blocked senders. -/
def chanSend (c : ChanState) (e : FsEventKind) : ChanState :=
  match c.buffer with
  | none => { c with buffer := some e }
  | some _ => { c with blocked := c.blocked ++ [e] }

/-- A receive on the channel (`rx.recv()`): it takes the buffered event
and the longest-blocked sender, if any, immediately completes its send
into the freed buffer. -/
def chanRecv (c : ChanState) : Option (FsEventKind × ChanState) :=
  match c.buffer with
  | none => none
  | some e =>
    match c.blocked with
    | [] => some (e, ⟨none, []⟩)
    | b :: rest => some (e, ⟨some b, rest⟩)

/-- The observable state of the watch loop: the channel, whether a run
(`make_request`) is in flight, and how many runs the loop has started. -/
structure WatchState where
  chan : ChanState
  running : Bool
  runs : Nat
  deriving DecidableEq

/-- Events pending anywhere in the channel (buffer plus blocked
senders). -/
def queueSize (c : ChanState) : Nat :=
  (match c.buffer with | some _ => 1 | none => 0) + c.blocked.length

/-- The watch loop's receiving phase: while no run is in flight it
receives pending events one by one; a modification event starts one run
and returns the loop to awaiting its completion; any other event is
skipped; an empty channel leaves the loop blocked in `recv`.  The fuel
is the number of pending events, enough to drain them. -/
def drain : Nat → WatchState → WatchState
  | 0, s => s
  | fuel + 1, s =>
    if s.running then s
    else
      match chanRecv s.chan with
      | none => s
      | some (e, c) =>
        match e with
        | .modify => { chan := c, running := true, runs := s.runs + 1 }
        | .other => drain fuel { s with chan := c, running := false }

/-- The two things that can happen to the watch loop from outside: a
filesystem notification arrives (the watcher callback sends it), or the
in-flight run finishes.  After either, the loop receives as much as it
can. -/
inductive WatchAct where
  | arrive (e : FsEventKind)
  | finishRun

/-- One external step of the watch loop. -/
def watchStep (s : WatchState) : WatchAct → WatchState
  | .arrive e =>
    let s1 : WatchState := { s with chan := chanSend s.chan e }
    drain (queueSize s1.chan) s1
  | .finishRun =>
    let s1 : WatchState := { s with running := false }
    drain (queueSize s1.chan) s1

/-- A sequence of external steps. -/
def watchExec (s : WatchState) (acts : List WatchAct) : WatchState :=
  acts.foldl watchStep s

/-- The state watch_mode starts in: empty channel, no run in flight. -/
def initWatch : WatchState := ⟨⟨none, []⟩, false, 0⟩

/-- The burst scenario: one modification starts a run; three more rapid
modifications arrive while it is in flight; then runs complete one after
another until the loop is quiescent. -/
def burstTrace : List WatchAct :=
  [.arrive .modify, .arrive .modify, .arrive .modify, .arrive .modify,
   .finishRun, .finishRun, .finishRun, .finishRun]

/-- Mirrors the body of watch_mode's loop (src/main.rs lines 153-162)
as the sequence of `make_request` calls it makes for `n` received
modification events: every call uses the same `file_path` and the same
`env` the function was given. -/
def watch_mode_runs (filePath : String) (env : Env) : Nat → List (String × Env)
  | 0 => []
  | n + 1 => (filePath, env) :: watch_mode_runs filePath env n

/-- Mirrors main's watch path (src/main.rs lines 44-57): the environment
is loaded once, before the initial run; the initial `make_request` and
then `watch_mode` both receive that same snapshot.  `envAt t` is the
environment `load_env` would produce from the configuration files as
they are at the time of run `t`, so a freshly reloading run `t` would
use `envAt t`. -/
def mainWatchRuns (filePath : String) (envAt : Nat → Env) (n : Nat) :
    List (String × Env) :=
  (filePath, envAt 0) :: watch_mode_runs filePath (envAt 0) n

/-- A configuration history that changes right after startup: the lookup
of "url" changes between run 0 and run 1. -/
def editedEnvAt : Nat → Env :=
  fun t => if t = 0 then [("url", Value.str "old")] else []

/-! Request discovery (find_available_requests in src/main.rs). -/

/-- A filesystem entry as the directory walk yields it: its absolute
path as components, and whether it is a regular file. -/
structure FsEntry where
  path : List String
  isFile : Bool
  deriving DecidableEq

/-- The file name of an entry (its last path component). -/
def entryName (e : FsEntry) : String := e.path.getLastD ""

/-- Whether the string `s` ends with the string `t` (Rust's
`str::ends_with`), checked on the underlying character lists. -/
def strEndsWith (s t : String) : Bool := t.data.isSuffixOf s.data

/-- Whether the path `p` lies at or below the directory `d` (component
by component). -/
def underDir : List String → List String → Bool
  | [], _ => true
  | _ :: _, [] => false
  | a :: as, b :: bs => a == b && underDir as bs

/-- Models the `WalkDir::new(start)` traversal over a filesystem given
as its list of entries: every entry at or below `start` is yielded,
paired with its depth — 0 for `start` itself, the number of components
below `start` otherwise. -/
def walkDir (fs : List FsEntry) (start : List String) : List (FsEntry × Nat) :=
  fs.filterMap (fun e =>
    if underDir start e.path then some (e, e.path.length - start.length)
    else none)

/-- Mirrors `find_available_requests` (src/main.rs lines 117-140): walk
from `cwd` (the current working directory, as main calls it on line 61),
keep every walked entry whose file name ends with ".http", and
relativize each kept path by taking its last `depth` components. -/
def find_available_requests (fs : List FsEntry) (cwd : List String) :
    List (List String) :=
  ((walkDir fs cwd).filter (fun p => strEndsWith (entryName p.1) ".http")).map
    (fun p => p.1.path.drop (p.1.path.length - p.2))

/-- Modelled from the spec: discovery as the claim states it — recursing
from the project root, selecting exactly the regular files whose name
ends with ".http", and returning each as a path relative to the root. -/
def claimed_discovery (fs : List FsEntry) (root : List String) :
    List (List String) :=
  ((walkDir fs root).filter
      (fun p => p.1.isFile && strEndsWith (entryName p.1) ".http")).map
    (fun p => p.1.path.drop root.length)

/-- A concrete project: the root `proj` contains `b.http` and a
subdirectory `sub` (the current working directory) holding the file
`a.http` and a directory named `d.http`. -/
def exFs : List FsEntry :=
  [⟨["proj"], false⟩,
   ⟨["proj", "sub"], false⟩,
   ⟨["proj", "sub", "a.http"], true⟩,
   ⟨["proj", "sub", "d.http"], false⟩,
   ⟨["proj", "b.http"], true⟩]

/-! User cancellation and run-result post-processing (src/main.rs). -/

/-- The error a run can end with, as main.rs distinguishes them: the two
inquire cancellation variants, or any other error. -/
inductive AppError where
  | operationCanceled
  | operationInterrupted
  | otherFailure (msg : String)
  deriving DecidableEq

/-- Mirrors `is_user_cancelation` (src/main.rs lines 107-115): exactly
the two inquire cancellation variants count as user cancellation. -/
def is_user_cancelation : AppError → Bool
  | .operationCanceled => true
  | .operationInterrupted => true
  | .otherFailure _ => false

/-- The message a logged error renders as. -/
def appErrorText : AppError → String
  | .operationCanceled => "Operation was canceled by the user"
  | .operationInterrupted => "Operation was interrupted by the user"
  | .otherFailure msg => msg

/-- Mirrors the final result mapping of main (src/main.rs lines 95-104):
an error that is a user cancellation becomes success; anything else is
returned unchanged. -/
def finalResult (result : Except AppError Unit) : Except AppError Unit :=
  match result with
  | .error e => if is_user_cancelation e then .ok () else .error e
  | .ok _ => result

/-- Mirrors the repeat-loop error reporting (src/main.rs lines 83-90):
a failed run is logged unless it was a user cancellation. -/
def repeatLoopLog (result : Except AppError Unit) : List String :=
  match result with
  | .ok _ => []
  | .error e => if is_user_cancelation e then [] else [appErrorText e]

/-! Interactive mode (src/main.rs line 31). -/

/-- The two CLI flags main combines into the interactive mode. -/
structure Args where
  nonInteractive : Bool
  watch : Bool

/-- Mirrors `set_interactive_mode(!(args.non_interactive || args.watch))`
(src/main.rs line 31). -/
def interactiveMode (a : Args) : Bool := !(a.nonInteractive || a.watch)

/-- What the resolution protocol does with a substitution failure. -/
inductive ResolutionAction where
  | promptUser (err : SubstituteError)
  | hardFail (err : SubstituteError)

/-- Modelled from the spec: the prompt module (prompt.rs source absent)
consults the process-wide interactive mode — in a fully interactive
context a substitution failure is answered by prompting or picking; in a
non-interactive context it is a hard failure. -/
def resolutionOnFailure (interactive : Bool) (err : SubstituteError) :
    ResolutionAction :=
  if interactive then .promptUser err else .hardFail err

/-! Concrete inputs used by the witnesses and counterexamples. -/

/-- A session context holding one request file: the template is the
single placeholder `\x7b\x7btoken\x7d\x7d` and no layer binds any key. -/
def ctxToken : Ctx :=
  { files := fun _ => [Tok.placeholder "token" none], baseEnv := fun _ => [] }

/-- A session context whose base environment binds `env` to two
candidate tables, as in the spec's selection scenario. -/
def ctxSelect : Ctx :=
  { files := fun _ => [Tok.placeholder "env" none]
    baseEnv := fun _ =>
      [("env", Value.array
        [Value.table [("name", Value.str "prod"), ("value", Value.str "https://prod")],
         Value.table [("name", Value.str "dev"), ("value", Value.str "https://dev")]])] }

/-- The two candidate tables of `ctxSelect`. -/
def exCandidates : List Value :=
  [Value.table [("name", Value.str "prod"), ("value", Value.str "https://prod")],
   Value.table [("name", Value.str "dev"), ("value", Value.str "https://dev")]]

/-- A key-press event whose prompt component accepts the text "xyz". -/
def evAcceptXyz : EventInput :=
  { keyPress := true, promptOut := some (.accept "xyz"), selectValueOut := none,
    requestSelOut := none, targetSelOut := none, keyMapping := .noMapping }

/-- A key-press event whose pending-value select accepts the second
candidate of `exCandidates`. -/
def evAcceptDev : EventInput :=
  { keyPress := true, promptOut := none,
    selectValueOut := some (.accept
      (Value.table [("name", Value.str "dev"), ("value", Value.str "https://dev")])),
    requestSelOut := none, targetSelOut := none, keyMapping := .noMapping }

/-- A key-press event whose prompt component aborts. -/
def evPromptAbort : EventInput :=
  { keyPress := true, promptOut := some .abort, selectValueOut := none,
    requestSelOut := none, targetSelOut := none, keyMapping := .noMapping }

/-- A key-press event carrying the abort key mapping and nothing else. -/
def evAbortKey : EventInput :=
  { keyPress := true, promptOut := none, selectValueOut := none,
    requestSelOut := none, targetSelOut := none, keyMapping := .abort }

/-- A transport-successful run whose body decodes but whose extraction
step fails. -/
def extractFailInput : RunInput :=
  { transport := .ok (), decoded := some (Value.str "body"), envLoad := .ok ()
    extracted := .error "extraction failed", persisted := .ok () }

/-- A transport-successful run whose body does not decode. -/
def undecodableInput : RunInput :=
  { transport := .ok (), decoded := none, envLoad := .ok ()
    extracted := .ok [("token", "abc123")], persisted := .ok () }

/-- A transport-successful run that decodes, extracts a token and
persists it. -/
def extractOkInput : RunInput :=
  { transport := .ok (), decoded := some (Value.str "body"), envLoad := .ok ()
    extracted := .ok [("token", "abc123")], persisted := .ok () }

/-- A transport-successful run whose body decodes and whose extraction
succeeds, but whose persistence step (update_data) fails. -/
def persistFailInput : RunInput :=
  { transport := .ok (), decoded := some (Value.str "body"), envLoad := .ok ()
    extracted := .ok [("token", "abc123")], persisted := .error "disk full" }

/-! Theorems. -/

/-- Every watch-loop run reuses the single environment snapshot passed
to watch_mode. -/
theorem watch_runs_const (fp : String) (env : Env) :
    ∀ n, watch_mode_runs fp env n = List.replicate n (fp, env)
  | 0 => rfl
  | n + 1 => by
      rw [watch_mode_runs, watch_runs_const fp env n, List.replicate_succ]

/-- C4 (counterexample): with a configuration that changes right after
startup, the run triggered by the first modification event still uses
the environment loaded at time 0, not a freshly reloaded one — the
claim's "freshly reloaded environment" is false at this input. -/
theorem c4_counterexample :
    (mainWatchRuns "api.http" editedEnvAt 1)[1]? = some ("api.http", editedEnvAt 0)
    ∧ editedEnvAt 0 ≠ editedEnvAt 1
    ∧ ¬ ((mainWatchRuns "api.http" editedEnvAt 1)[1]?
          = some ("api.http", editedEnvAt 1)) := by
  refine ⟨rfl, ?_, ?_⟩
  · intro h
    have hlen := congrArg List.length h
    simp [editedEnvAt] at hlen
  · intro h
    have h0 : (some ("api.http", editedEnvAt 0) : Option (String × Env))
        = some ("api.http", editedEnvAt 1) := h
    have h1 := Option.some.inj h0
    have h2 := congrArg (fun p : String × Env => p.2.length) h1
    simp [editedEnvAt] at h2

/-- C4 (amended): in watch mode no environment reload ever happens after
startup — the initial run and every watch-triggered run all use exactly
the snapshot loaded at time 0, so configuration edits between runs do
not take effect. -/
theorem c4_theorem (fp : String) (envAt : Nat → Env) (n : Nat) :
    mainWatchRuns fp envAt n = List.replicate (n + 1) (fp, envAt 0) := by
  rw [mainWatchRuns, watch_runs_const, List.replicate_succ]

/-- C5 (counterexample): two runs whose transport call succeeded and
whose body decoded — one whose extraction step failed, one whose
persistence step (update_data) failed — each have that step's error as
the run's result: make_request propagates it through `?` instead of
logging it, so the claim is false at these inputs. -/
theorem c5_counterexample :
    extractFailInput.transport = .ok ()
    ∧ make_request extractFailInput = (.error "extraction failed", [])
    ∧ (make_request extractFailInput).1 ≠ .ok ()
    ∧ persistFailInput.transport = .ok ()
    ∧ make_request persistFailInput = (.error "disk full", [])
    ∧ (make_request persistFailInput).1 ≠ .ok () := by
  refine ⟨rfl, rfl, ?_, rfl, rfl, ?_⟩
  · intro h
    exact Except.noConfusion h
  · intro h
    exact Except.noConfusion h

/-- C5 (amended): after a successful transport call, a non-decodable
body yields zero extracted pairs and no error; but an error in the
environment reload, the extraction, or the persistence step propagates
as the run's result. -/
theorem c5_theorem (i : RunInput) (h : i.transport = .ok ()) :
    (i.decoded = none → make_request i = (.ok (), []))
    ∧ (∀ d e, i.decoded = some d → i.envLoad = .ok () →
        i.extracted = .error e → make_request i = (.error e, []))
    ∧ (∀ d e, i.decoded = some d → i.envLoad = .error e →
        make_request i = (.error e, []))
    ∧ (∀ d vars e, i.decoded = some d → i.envLoad = .ok () →
        i.extracted = .ok vars → i.persisted = .error e →
        make_request i = (.error e, [])) := by
  refine ⟨?_, ?_, ?_, ?_⟩
  · intro hd; simp [make_request, h, hd]
  · intro d e hd he hx; simp [make_request, h, hd, he, hx]
  · intro d e hd he; simp [make_request, h, hd, he]
  · intro d vars e hd he hx hp; simp [make_request, h, hd, he, hx, hp]

/-- C5 (witness): applied at the run whose persistence step fails; the
last conjunct instantiates the persistence-error case concretely. -/
theorem c5_witness :
    persistFailInput.transport = .ok ()
    ∧ ((persistFailInput.decoded = none →
          make_request persistFailInput = (.ok (), []))
       ∧ (∀ d e, persistFailInput.decoded = some d →
            persistFailInput.envLoad = .ok () →
            persistFailInput.extracted = .error e →
            make_request persistFailInput = (.error e, []))
       ∧ (∀ d e, persistFailInput.decoded = some d →
            persistFailInput.envLoad = .error e →
            make_request persistFailInput = (.error e, []))
       ∧ (∀ d vars e, persistFailInput.decoded = some d →
            persistFailInput.envLoad = .ok () →
            persistFailInput.extracted = .ok vars →
            persistFailInput.persisted = .error e →
            make_request persistFailInput = (.error e, [])))
    ∧ make_request persistFailInput = (.error "disk full", []) :=
  ⟨rfl, c5_theorem persistFailInput rfl,
   (c5_theorem persistFailInput rfl).2.2.2 (Value.str "body")
     [("token", "abc123")] "disk full" rfl rfl rfl rfl⟩

/-- C6: a user cancellation ends the run silently as a no-op — the final
result mapping of main turns it into success, the repeat loop logs
nothing for it, and in the UI an aborted prompt merely returns the state
to idle. -/
theorem c6_theorem (e : AppError) (h : is_user_cancelation e = true) :
    finalResult (.error e) = .ok ()
    ∧ repeatLoopLog (.error e) = []
    ∧ (∀ (fp k : String) (opts : List (String × String)) (fb : Option String)
        (ev : EventInput), ev.keyPress = true → ev.promptOut = some .abort →
        handle_event (.pendingValue fp k opts (.prompt fb)) ev
          = some (.changeState .idle)) := by
  refine ⟨?_, ?_, ?_⟩
  · simp [finalResult, h]
  · simp [repeatLoopLog, h]
  · intro fp k opts fb ev h1 h2
    simp [handle_event, h1, h2]

/-- C6 (witness). -/
theorem c6_witness :
    is_user_cancelation .operationCanceled = true
    ∧ (finalResult (.error .operationCanceled) = .ok ()
       ∧ repeatLoopLog (.error .operationCanceled) = []
       ∧ (∀ (fp k : String) (opts : List (String × String)) (fb : Option String)
           (ev : EventInput), ev.keyPress = true → ev.promptOut = some .abort →
           handle_event (.pendingValue fp k opts (.prompt fb)) ev
             = some (.changeState .idle))) :=
  ⟨rfl, c6_theorem .operationCanceled rfl⟩

/-- C8: a run cancelled at an await point before completion executes no
extraction step, writes nothing to the persisted layer and produces no
result; in the UI, the abort key in the running state aborts the handle
and returns to idle. -/
theorem c8_theorem (i : RunInput) (c : Option CancelPoint) (h : c ≠ none) :
    taskWrites i c = []
    ∧ taskExtracts c = false
    ∧ taskCompleted c = false
    ∧ (∀ ev : EventInput, ev.keyPress = true → ev.keyMapping = .abort →
        handle_event .runningRequest ev = some (.changeState .idle)) := by
  have hev : ∀ ev : EventInput, ev.keyPress = true → ev.keyMapping = .abort →
      handle_event .runningRequest ev = some (.changeState .idle) := by
    intro ev h1 h2
    simp [handle_event, h1, h2]
  match c with
  | none => exact absurd rfl h
  | some .atTransportAwait => exact ⟨rfl, rfl, rfl, hev⟩
  | some .atDecodeAwait => exact ⟨rfl, rfl, rfl, hev⟩

/-- C8 (witness). -/
theorem c8_witness :
    (some CancelPoint.atDecodeAwait ≠ none)
    ∧ (taskWrites extractOkInput (some .atDecodeAwait) = []
       ∧ taskExtracts (some .atDecodeAwait) = false
       ∧ taskCompleted (some .atDecodeAwait) = false
       ∧ (∀ ev : EventInput, ev.keyPress = true → ev.keyMapping = .abort →
           handle_event .runningRequest ev = some (.changeState .idle))) :=
  ⟨fun h => Option.noConfusion h,
   c8_theorem extractOkInput (some .atDecodeAwait) (fun h => Option.noConfusion h)⟩

/-- C10: enabling watch mode turns the interactive mode off exactly as
the explicit non-interactive flag does, and with the interactive mode
off a substitution failure is a hard failure, not a prompt. -/
theorem c10_theorem (a : Args) (err : SubstituteError) (h : a.watch = true) :
    interactiveMode a = false
    ∧ interactiveMode a = interactiveMode { nonInteractive := true, watch := false }
    ∧ resolutionOnFailure (interactiveMode a) err = .hardFail err := by
  have hm : interactiveMode a = false := by simp [interactiveMode, h]
  refine ⟨hm, ?_, ?_⟩
  · rw [hm]; rfl
  · rw [hm]; rfl

/-- C10 (witness). -/
theorem c10_witness :
    (Args.mk false true).watch = true
    ∧ (interactiveMode ⟨false, true⟩ = false
       ∧ interactiveMode ⟨false, true⟩
           = interactiveMode { nonInteractive := true, watch := false }
       ∧ resolutionOnFailure (interactiveMode ⟨false, true⟩)
           (.valueNotFound "token" none)
           = .hardFail (.valueNotFound "token" none)) :=
  ⟨rfl, c10_theorem ⟨false, true⟩ (.valueNotFound "token" none) rfl⟩

/-- Appending no text is the identity on a substitution outcome. -/
theorem withText_empty (x : Except SubstituteError String) : withText "" x = x := by
  cases x with
  | ok r =>
    show Except.ok ("" ++ r) = Except.ok r
    apply congrArg
    apply String.ext
    simp
  | error e => rfl

/-- Prepending text composes by string concatenation. -/
theorem withText_comp (s t : String) (x : Except SubstituteError String) :
    withText s (withText t x) = withText (s ++ t) x := by
  cases x with
  | ok r =>
    show Except.ok (s ++ (t ++ r)) = Except.ok (s ++ t ++ r)
    apply congrArg
    apply String.ext
    simp
  | error e => rfl

/-- The scan is compositional: scanning a concatenation first scans the
front, and only a fully resolved front lets the error or text of the
back surface. -/
theorem substitute_append (xs ys : List Tok) (env : Env) :
    substitute (xs ++ ys) env =
      match substitute xs env with
      | .ok s => withText s (substitute ys env)
      | .error e => .error e := by
  induction xs with
  | nil =>
    show substitute ys env = withText "" (substitute ys env)
    exact (withText_empty _).symm
  | cons t xs ih =>
    cases t with
    | lit s =>
      have hL : substitute (Tok.lit s :: (xs ++ ys)) env
          = withText s (substitute (xs ++ ys) env) := rfl
      have hR : substitute (Tok.lit s :: xs) env
          = withText s (substitute xs env) := rfl
      rw [List.cons_append, hL, hR, ih]
      cases h : substitute xs env with
      | ok s' => exact withText_comp _ _ _
      | error e => rfl
    | placeholder k fb =>
      cases hl : lookupEnv env k with
      | none =>
        have hL : substitute (Tok.placeholder k fb :: (xs ++ ys)) env
            = .error (.valueNotFound k fb) := by simp [substitute, hl]
        have hR : substitute (Tok.placeholder k fb :: xs) env
            = .error (.valueNotFound k fb) := by simp [substitute, hl]
        rw [List.cons_append, hL, hR]
      | some v =>
        cases v with
        | array vs =>
          have hL : substitute (Tok.placeholder k fb :: (xs ++ ys)) env
              = .error (.multipleValuesFound k vs) := by simp [substitute, hl]
          have hR : substitute (Tok.placeholder k fb :: xs) env
              = .error (.multipleValuesFound k vs) := by simp [substitute, hl]
          rw [List.cons_append, hL, hR]
        | table kvs =>
          have hL : substitute (Tok.placeholder k fb :: (xs ++ ys)) env
              = .error (.otherError ("unsupported value for " ++ k)) := by
            simp [substitute, hl]
          have hR : substitute (Tok.placeholder k fb :: xs) env
              = .error (.otherError ("unsupported value for " ++ k)) := by
            simp [substitute, hl]
          rw [List.cons_append, hL, hR]
        | str s =>
          have hL : substitute (Tok.placeholder k fb :: (xs ++ ys)) env
              = withText s (substitute (xs ++ ys) env) := by simp [substitute, hl]
          have hR : substitute (Tok.placeholder k fb :: xs) env
              = withText s (substitute xs env) := by simp [substitute, hl]
          rw [List.cons_append, hL, hR, ih]
          cases h : substitute xs env with
          | ok s' => exact withText_comp _ _ _
          | error e => rfl
        | int n =>
          have hL : substitute (Tok.placeholder k fb :: (xs ++ ys)) env
              = withText (toString n) (substitute (xs ++ ys) env) := by
            simp [substitute, hl]
          have hR : substitute (Tok.placeholder k fb :: xs) env
              = withText (toString n) (substitute xs env) := by simp [substitute, hl]
          rw [List.cons_append, hL, hR, ih]
          cases h : substitute xs env with
          | ok s' => exact withText_comp _ _ _
          | error e => rfl
        | bool b =>
          have hL : substitute (Tok.placeholder k fb :: (xs ++ ys)) env
              = withText (if b then "true" else "false")
                  (substitute (xs ++ ys) env) := by simp [substitute, hl]
          have hR : substitute (Tok.placeholder k fb :: xs) env
              = withText (if b then "true" else "false")
                  (substitute xs env) := by simp [substitute, hl]
          rw [List.cons_append, hL, hR, ih]
          cases h : substitute xs env with
          | ok s' => exact withText_comp _ _ _
          | error e => rfl

/-- C1: a substitution round failing with ValueNotFound drives exactly
one prompt round — try_request asks for exactly that key, offering the
inline fallback only as the prompt's suggestion; the pending state keeps
the accumulated overrides; accepting a value appends exactly the pair
(key, value) to them without discarding anything; and dispatching the
resulting intent re-invokes substitution on the same template with the
extended override list.  Without an accepted answer no value is ever
applied. -/
theorem c1_theorem (ctx : Ctx) (fp k : String) (fb : Option String)
    (opts : List (String × String)) (v : String) (ev : EventInput) (w : World)
    (hsub : substitute (ctx.files fp) (load_env (ctx.baseEnv fp) opts)
      = .error (.valueNotFound k fb))
    (hkey : ev.keyPress = true) (hacc : ev.promptOut = some (.accept v)) :
    try_request ctx fp opts = some (.askForValue k fp opts (.prompt fb))
    ∧ dispatch ctx w (.askForValue k fp opts (.prompt fb))
        = (w, some (.changeState (.pendingValue fp k opts (.prompt fb))))
    ∧ handle_event (.pendingValue fp k opts (.prompt fb)) ev
        = some (.prepareRequest fp (opts ++ [(k, v)]))
    ∧ dispatch ctx w (.prepareRequest fp (opts ++ [(k, v)]))
        = (w, try_request ctx fp (opts ++ [(k, v)]))
    ∧ (∀ ev2 : EventInput, ev2.promptOut = none →
        handle_event (.pendingValue fp k opts (.prompt fb)) ev2 = none) := by
  refine ⟨?_, rfl, ?_, rfl, ?_⟩
  · simp [try_request, hsub]
  · simp [handle_event, hkey, hacc]
  · intro ev2 h2
    cases hkp : ev2.keyPress <;> simp [handle_event, hkp, h2]

/-- C1 (witness): the spec's own scenario — template `\x7b\x7btoken\x7d\x7d`, no
binding anywhere, answer "xyz". -/
theorem c1_witness :
    substitute (ctxToken.files "a.http") (load_env (ctxToken.baseEnv "a.http") [])
      = .error (.valueNotFound "token" none)
    ∧ evAcceptXyz.keyPress = true
    ∧ evAcceptXyz.promptOut = some (.accept "xyz")
    ∧ (try_request ctxToken "a.http" []
        = some (.askForValue "token" "a.http" [] (.prompt none))
       ∧ dispatch ctxToken (initWorld "default")
           (.askForValue "token" "a.http" [] (.prompt none))
         = (initWorld "default", some (.changeState
             (.pendingValue "a.http" "token" [] (.prompt none))))
       ∧ handle_event (.pendingValue "a.http" "token" [] (.prompt none)) evAcceptXyz
         = some (.prepareRequest "a.http" ([] ++ [("token", "xyz")]))
       ∧ dispatch ctxToken (initWorld "default")
           (.prepareRequest "a.http" ([] ++ [("token", "xyz")]))
         = (initWorld "default", try_request ctxToken "a.http" ([] ++ [("token", "xyz")]))
       ∧ (∀ ev2 : EventInput, ev2.promptOut = none →
           handle_event (.pendingValue "a.http" "token" [] (.prompt none)) ev2
             = none)) :=
  ⟨rfl, rfl, rfl,
   c1_theorem ctxToken "a.http" "token" none [] "xyz" evAcceptXyz
     (initWorld "default") rfl rfl rfl⟩

/-- C2: a placeholder whose resolved value is a sequence of two or more
candidates makes substitution fail with MultipleValuesFound carrying
exactly those candidates in their original order (never the first one
auto-picked — without an accepted choice nothing happens); the accepted
candidate's substituted value is its "value" field when it is a table
(verbatim for a string field, textual otherwise, an error when absent)
and its own textual form otherwise, while its display label comes from
its "name" field. -/
theorem c2_theorem (pre rest : List Tok) (env : Env) (k : String)
    (vs : List Value) (s : String)
    (hpre : substitute pre env = .ok s)
    (hk : lookupEnv env k = some (.array vs)) (_h2 : 2 ≤ vs.length)
    (fp : String) (opts : List (String × String)) (sel : Value) (ev : EventInput)
    (hkey : ev.keyPress = true) (hacc : ev.selectValueOut = some (.accept sel)) :
    substitute (pre ++ Tok.placeholder k none :: rest) env
      = .error (.multipleValuesFound k vs)
    ∧ handle_event (.pendingValue fp k opts (.select vs)) ev
        = (match chosenValue k sel with
           | .ok v => some (.prepareRequest fp (opts ++ [(k, v)]))
           | .error msg => some (.showError msg))
    ∧ (∀ t v, sel = .table t → tableGet t "value" = some (.str v) →
        chosenValue k sel = .ok v)
    ∧ (∀ t, sel = .table t → tableGet t "value" = none →
        chosenValue k sel = .error ("Replacement not found: " ++ k))
    ∧ (∀ x, sel = .str x → chosenValue k sel = .ok (valueToString (.str x)))
    ∧ (∀ t, sel = .table t → selectItemText sel
        = (match tableGet t "name" with
           | some (.str n) => n
           | some v => valueToString v
           | none => valueToString (.table t)))
    ∧ (∀ ev2 : EventInput, ev2.selectValueOut = none →
        handle_event (.pendingValue fp k opts (.select vs)) ev2 = none) := by
  refine ⟨?_, ?_, ?_, ?_, ?_, ?_, ?_⟩
  · rw [substitute_append, hpre]
    simp [substitute, hk, withText]
  · simp only [handle_event, hkey, if_true, hacc]
  · intro t v hsel hv; subst hsel; simp [chosenValue, hv]
  · intro t hsel hv; subst hsel; simp [chosenValue, hv]
  · intro x hsel; subst hsel; simp [chosenValue]
  · intro t hsel; subst hsel; rfl
  · intro ev2 h2'
    cases hkp : ev2.keyPress <;> simp [handle_event, hkp, h2']

/-- C2 (witness): the spec's selection scenario — `env` bound to the
prod/dev candidate tables, the user choosing the second. -/
theorem c2_witness :
    substitute [] (ctxSelect.baseEnv "x") = .ok ""
    ∧ lookupEnv (ctxSelect.baseEnv "x") "env" = some (.array exCandidates)
    ∧ 2 ≤ exCandidates.length
    ∧ evAcceptDev.keyPress = true
    ∧ evAcceptDev.selectValueOut = some (.accept
        (Value.table [("name", Value.str "dev"), ("value", Value.str "https://dev")]))
    ∧ (substitute ([] ++ Tok.placeholder "env" none :: []) (ctxSelect.baseEnv "x")
        = .error (.multipleValuesFound "env" exCandidates)
       ∧ handle_event (.pendingValue "x" "env" [] (.select exCandidates)) evAcceptDev
          = (match chosenValue "env"
               (Value.table [("name", Value.str "dev"), ("value", Value.str "https://dev")]) with
             | .ok v => some (.prepareRequest "x" ([] ++ [("env", v)]))
             | .error msg => some (.showError msg))
       ∧ (∀ t v, (Value.table [("name", Value.str "dev"), ("value", Value.str "https://dev")])
            = .table t → tableGet t "value" = some (.str v) →
            chosenValue "env"
              (Value.table [("name", Value.str "dev"), ("value", Value.str "https://dev")])
              = .ok v)
       ∧ (∀ t, (Value.table [("name", Value.str "dev"), ("value", Value.str "https://dev")])
            = .table t → tableGet t "value" = none →
            chosenValue "env"
              (Value.table [("name", Value.str "dev"), ("value", Value.str "https://dev")])
              = .error ("Replacement not found: " ++ "env"))
       ∧ (∀ x, (Value.table [("name", Value.str "dev"), ("value", Value.str "https://dev")])
            = .str x →
            chosenValue "env"
              (Value.table [("name", Value.str "dev"), ("value", Value.str "https://dev")])
              = .ok (valueToString (.str x)))
       ∧ (∀ t, (Value.table [("name", Value.str "dev"), ("value", Value.str "https://dev")])
            = .table t →
            selectItemText
              (Value.table [("name", Value.str "dev"), ("value", Value.str "https://dev")])
            = (match tableGet t "name" with
               | some (.str n) => n
               | some v => valueToString v
               | none => valueToString (.table t)))
       ∧ (∀ ev2 : EventInput, ev2.selectValueOut = none →
           handle_event (.pendingValue "x" "env" [] (.select exCandidates)) ev2
             = none)) :=
  ⟨rfl, rfl, by decide, rfl, rfl,
   c2_theorem [] [] (ctxSelect.baseEnv "x") "env" exCandidates ""
     rfl rfl (by decide) "x" []
     (Value.table [("name", Value.str "dev"), ("value", Value.str "https://dev")])
     evAcceptDev rfl rfl⟩

/-- While a run is in flight the loop is not receiving, so draining does
nothing. -/
theorem drain_running (fuel : Nat) (s : WatchState) (h : s.running = true) :
    drain fuel s = s := by
  cases fuel <;> simp [drain, h]

/-- Unfolding one step of a watch execution. -/
theorem watchExec_cons (s : WatchState) (a : WatchAct) (l : List WatchAct) :
    watchExec s (a :: l) = watchExec (watchStep s a) l := rfl

/-- Watch executions compose. -/
theorem watchExec_append (s : WatchState) (l1 l2 : List WatchAct) :
    watchExec s (l1 ++ l2) = watchExec (watchExec s l1) l2 :=
  List.foldl_append _ _ _ _

/-- An event arriving while a run is in flight is only stored in the
channel: the buffer if it is free, the queue of blocked senders
otherwise.  Nothing is dropped and no run starts. -/
theorem watch_arrive_running (s : WatchState) (h : s.running = true)
    (e : FsEventKind) :
    watchStep s (.arrive e) = { s with chan := chanSend s.chan e } := by
  show drain (queueSize (chanSend s.chan e)) { s with chan := chanSend s.chan e }
      = { s with chan := chanSend s.chan e }
  exact drain_running _ _ h

/-- Draining a backlog of `j + 1` pending modification events (one
buffered, `j` in blocked senders) takes `j + 2` run completions and
starts `j + 1` further runs — one per pending event. -/
theorem finish_phase : ∀ j r : Nat,
    watchExec ⟨⟨some .modify, List.replicate j .modify⟩, true, r⟩
      (List.replicate (j + 2) .finishRun)
    = ⟨⟨none, []⟩, false, r + j + 1⟩
  | 0, r => rfl
  | j + 1, r => by
    have hq : queueSize ⟨some .modify, List.replicate (j + 1) .modify⟩ = j + 2 := by
      simp [queueSize]
      omega
    have hstep : watchStep ⟨⟨some .modify, List.replicate (j + 1) .modify⟩, true, r⟩
        .finishRun
        = ⟨⟨some .modify, List.replicate j .modify⟩, true, r + 1⟩ := by
      show drain (queueSize ⟨some .modify, List.replicate (j + 1) .modify⟩)
          ⟨⟨some .modify, List.replicate (j + 1) .modify⟩, false, r⟩ = _
      rw [hq]
      simp [drain, chanRecv, List.replicate_succ]
    show watchExec
        (watchStep ⟨⟨some .modify, List.replicate (j + 1) .modify⟩, true, r⟩
          .finishRun)
        (List.replicate (j + 2) .finishRun) = _
    rw [hstep, finish_phase j (r + 1)]
    simp
    omega

/-- A burst of `j + 2` rapid modification events starts one run and
leaves `j + 1` events pending in the channel: one buffered, `j` held by
blocked senders. -/
theorem arrive_phase : ∀ j : Nat,
    watchExec initWatch (List.replicate (j + 2) (.arrive .modify))
    = ⟨⟨some .modify, List.replicate j .modify⟩, true, 1⟩
  | 0 => rfl
  | j + 1 => by
    have hrep : List.replicate (j + 1 + 2) (WatchAct.arrive .modify)
        = List.replicate (j + 2) (WatchAct.arrive .modify) ++ [.arrive .modify] := by
      show List.replicate (j + 2 + 1) (WatchAct.arrive .modify) = _
      rw [List.replicate_succ']
    rw [hrep, watchExec_append, arrive_phase j]
    show watchStep ⟨⟨some .modify, List.replicate j .modify⟩, true, 1⟩
        (.arrive .modify) = _
    rw [watch_arrive_running _ rfl]
    simp [chanSend, List.replicate_succ']

/-- C3 (counterexample): in the burst scenario — one modification starts
a run, three more arrive while it is in flight, then runs complete until
quiescence — the loop starts four runs in total, i.e. three additional
runs, not the single additional run the claim states (which would make
two in total).  The capacity-one channel never drops the extra
notifications: their senders block in `blocking_send` and deliver later. -/
theorem c3_counterexample :
    (watchExec initWatch burstTrace).runs = 4
    ∧ (watchExec initWatch burstTrace).running = false
    ∧ (watchExec initWatch burstTrace).chan = ⟨none, []⟩
    ∧ ¬ ((watchExec initWatch burstTrace).runs = 2) := by decide

/-- C3 (amended): the channel buffers at most one pending event, but a
sender finding it full blocks rather than dropping or overwriting, so no
modification notification is ever lost: `n` rapid modification events
followed by the completions of the runs they trigger yield exactly `n`
runs — one per notification — and an empty, quiescent loop. -/
theorem c3_theorem (n : Nat) :
    watchExec initWatch
      (List.replicate n (.arrive .modify) ++ List.replicate n .finishRun)
    = ⟨⟨none, []⟩, false, n⟩ := by
  match n with
  | 0 => rfl
  | 1 => rfl
  | j + 2 =>
    rw [watchExec_append, arrive_phase j, finish_phase j 1]
    simp
    omega

/-- A path under a directory is at least as long as the directory. -/
theorem underDir_length : ∀ d p : List String, underDir d p = true →
    d.length ≤ p.length
  | [], _, _ => Nat.zero_le _
  | _ :: _, [], h => by simp [underDir] at h
  | _ :: as, _ :: bs, h => by
    simp only [underDir, Bool.and_eq_true] at h
    simpa using Nat.succ_le_succ (underDir_length as bs h.2)

/-- Dropping the directory's components from a path under it and putting
the directory back in front recovers the path: the dropped suffix is the
path relative to the directory. -/
theorem underDir_append_drop : ∀ d p : List String, underDir d p = true →
    d ++ p.drop d.length = p
  | [], p, _ => rfl
  | _ :: _, [], h => by simp [underDir] at h
  | a :: as, b :: bs, h => by
    simp only [underDir, Bool.and_eq_true, beq_iff_eq] at h
    simp only [List.length_cons, List.drop_succ_cons, List.cons_append, h.1]
    rw [underDir_append_drop as bs h.2]

/-- Membership in the walk: exactly the entries under the start
directory, paired with their depth below it. -/
theorem mem_walkDir (fs : List FsEntry) (cwd : List String) (p : FsEntry × Nat) :
    p ∈ walkDir fs cwd ↔
      p.1 ∈ fs ∧ underDir cwd p.1.path = true
        ∧ p.2 = p.1.path.length - cwd.length := by
  simp only [walkDir, List.mem_filterMap]
  constructor
  · rintro ⟨e, he, hif⟩
    split at hif
    · next hu =>
      injection hif with h
      subst h
      exact ⟨he, hu, rfl⟩
    · exact absurd hif (by simp)
  · rintro ⟨he, hu, hd⟩
    refine ⟨p.1, he, ?_⟩
    rw [if_pos hu]
    rcases p with ⟨e, d⟩
    simp only at hd
    rw [hd]

/-- C9 (counterexample): with the current working directory a strict
subdirectory of the project root, main's discovery walks only the cwd —
it misses `b.http` under the root, includes the directory `d.http`, and
returns paths relative to the cwd — while the claim's discovery (from
the root, files only, root-relative) yields different paths. -/
theorem c9_counterexample :
    find_available_requests exFs ["proj", "sub"] = [["a.http"], ["d.http"]]
    ∧ claimed_discovery exFs ["proj"] = [["sub", "a.http"], ["b.http"]]
    ∧ find_available_requests exFs ["proj", "sub"]
        ≠ claimed_discovery exFs ["proj"]
    ∧ FsEntry.mk ["proj", "sub", "d.http"] false ∈ exFs := by decide

/-- C9 (amended): main's discovery recurses from the current working
directory (not the project root), selects every walked entry — file or
directory — whose name ends with ".http", and returns each as a path
relative to the cwd: dropping the cwd's components, which the third part
identifies as the cwd-relative remainder. -/
theorem c9_theorem (fs : List FsEntry) (cwd : List String) :
    find_available_requests fs cwd
      = ((walkDir fs cwd).filter
          (fun p => strEndsWith (entryName p.1) ".http")).map
          (fun p => p.1.path.drop cwd.length)
    ∧ (∀ r, r ∈ find_available_requests fs cwd ↔
        ∃ e, e ∈ fs ∧ underDir cwd e.path = true
          ∧ strEndsWith (entryName e) ".http" = true
          ∧ r = e.path.drop cwd.length)
    ∧ (∀ e : FsEntry, underDir cwd e.path = true →
        cwd ++ e.path.drop cwd.length = e.path) := by
  have hdrop : ∀ p : FsEntry × Nat, p ∈ walkDir fs cwd →
      p.1.path.drop (p.1.path.length - p.2) = p.1.path.drop cwd.length := by
    intro p hp
    rcases (mem_walkDir fs cwd p).1 hp with ⟨_, hu, hd⟩
    rw [hd, Nat.sub_sub_self (underDir_length _ _ hu)]
  have hmain : find_available_requests fs cwd
      = ((walkDir fs cwd).filter
          (fun p => strEndsWith (entryName p.1) ".http")).map
          (fun p => p.1.path.drop cwd.length) := by
    apply List.map_congr_left
    intro p hp
    exact hdrop p (List.mem_filter.mp hp).1
  refine ⟨hmain, ?_, fun e => underDir_append_drop cwd e.path⟩
  intro r
  rw [hmain]
  simp only [List.mem_map, List.mem_filter, mem_walkDir]
  constructor
  · rintro ⟨⟨e, d⟩, ⟨⟨he, hu, _⟩, hends⟩, hr⟩
    exact ⟨e, he, hu, hends, hr.symm⟩
  · rintro ⟨e, he, hu, hends, hr⟩
    exact ⟨(e, e.path.length - cwd.length), ⟨⟨he, hu, rfl⟩, hends⟩, hr.symm⟩

/-- Observing a finished task preserves the in-flight invariant. -/
theorem completeRun_inv (w : World) (h : flightInv w) : flightInv (completeRun w) := by
  rcases hw : w.state with _ | ⟨fp, k, opts, ps⟩ | _ | _ <;>
    simp [flightInv, completeRun, hw] at h ⊢ <;> omega

/-- Dispatching a prepare-request intent from a state with no task in
flight ends with the invariant intact: a successful substitution spawns
exactly one task and enters the running state, a failure only changes
the popup or the error line. -/
theorem chain_prepare (ctx : Ctx) (w : World) (fp : String)
    (opts : List (String × String)) (hI : w.inFlight = 0)
    (hs : (match w.state with | AppState.runningRequest => (1 : Nat) | _ => 0) = 0) :
    flightInv (runChain ctx 8 w (some (.prepareRequest fp opts))) := by
  show flightInv (runChain ctx 7 w (try_request ctx fp opts))
  cases hsub : substitute (ctx.files fp) (load_env (ctx.baseEnv fp) opts) with
  | ok prepared =>
    have hr : try_request ctx fp opts = some (.sendRequest fp prepared) := by
      simp [try_request, hsub]
    rw [hr]
    show w.inFlight + 1 = 1
    omega
  | error e =>
    cases e with
    | multipleValuesFound key values =>
      have hr : try_request ctx fp opts
          = some (.askForValue key fp opts (.select values)) := by
        simp [try_request, hsub]
      rw [hr]
      show w.inFlight = 0
      exact hI
    | valueNotFound key fallback =>
      have hr : try_request ctx fp opts
          = some (.askForValue key fp opts (.prompt fallback)) := by
        simp [try_request, hsub]
      rw [hr]
      show w.inFlight = 0
      exact hI
    | otherError msg =>
      have hr : try_request ctx fp opts = some (.showError msg) := by
        simp [try_request, hsub]
      rw [hr]
      show w.inFlight
          = (match w.state with | AppState.runningRequest => (1 : Nat) | _ => 0)
      rw [hI]
      exact hs.symm

/-- Processing any event preserves the in-flight invariant. -/
theorem processEvent_inv (ctx : Ctx) (w : World) (e : EventInput)
    (h : flightInv w) : flightInv (processEvent ctx w e) := by
  rcases e with ⟨kp, po, svo, rso, tso, km⟩
  rcases hw : w.state with _ | ⟨fp, k, opts, ps⟩ | _ | _
  case idle =>
    have hI0 : w.inFlight = 0 := by simpa [flightInv, hw] using h
    have hpe : processEvent ctx w ⟨kp, po, svo, rso, tso, km⟩
        = runChain ctx 8 w (handle_event w.state ⟨kp, po, svo, rso, tso, km⟩) := by
      simp [processEvent, handle_event_w, hw]
    rw [hpe, hw]
    cases kp with
    | false => exact h
    | true =>
      rcases rso with _ | rso'
      · cases km with
        | editor => exact h
        | abort => exact h
        | selectTargetKey => show w.inFlight = 0; exact hI0
        | noMapping => exact h
      · cases rso' with
        | abort =>
          cases km with
          | editor => exact h
          | abort => exact h
          | selectTargetKey => show w.inFlight = 0; exact hI0
          | noMapping => exact h
        | accept fp' =>
          exact chain_prepare ctx w fp' [] hI0 (by rw [hw])
  case pendingValue =>
    have hI0 : w.inFlight = 0 := by simpa [flightInv, hw] using h
    have hpe : processEvent ctx w ⟨kp, po, svo, rso, tso, km⟩
        = runChain ctx 8 w (handle_event w.state ⟨kp, po, svo, rso, tso, km⟩) := by
      simp [processEvent, handle_event_w, hw]
    rw [hpe, hw]
    cases kp with
    | false => exact h
    | true =>
      cases ps with
      | select values =>
        rcases svo with _ | svo'
        · exact h
        · cases svo' with
          | abort => show w.inFlight = 0; exact hI0
          | accept sel =>
            cases hcv : chosenValue k sel with
            | ok v =>
              have hh : handle_event
                  (.pendingValue fp k opts (.select values))
                  ⟨true, po, some (.accept sel), rso, tso, km⟩
                  = some (.prepareRequest fp (opts ++ [(k, v)])) := by
                simp [handle_event, hcv]
              rw [hh]
              exact chain_prepare ctx w fp (opts ++ [(k, v)]) hI0 (by rw [hw])
            | error msg =>
              have hh : handle_event
                  (.pendingValue fp k opts (.select values))
                  ⟨true, po, some (.accept sel), rso, tso, km⟩
                  = some (.showError msg) := by
                simp [handle_event, hcv]
              rw [hh]
              show w.inFlight
                  = (match w.state with
                     | AppState.runningRequest => (1 : Nat) | _ => 0)
              rw [hI0, hw]
      | prompt fallback =>
        rcases po with _ | po'
        · exact h
        · cases po' with
          | abort => show w.inFlight = 0; exact hI0
          | accept v =>
            exact chain_prepare ctx w fp (opts ++ [(k, v)]) hI0 (by rw [hw])
  case runningRequest =>
    have hI1 : w.inFlight = 1 := by simpa [flightInv, hw] using h
    have hpe : processEvent ctx w ⟨kp, po, svo, rso, tso, km⟩
        = runChain ctx 8
            ((handle_event_w w ⟨kp, po, svo, rso, tso, km⟩).1)
            ((handle_event_w w ⟨kp, po, svo, rso, tso, km⟩).2) := rfl
    rw [hpe]
    cases kp with
    | false =>
      have hwnone : handle_event_w w ⟨false, po, svo, rso, tso, km⟩ = (w, none) := by
        simp [handle_event_w, hw]
      rw [hwnone]
      exact h
    | true =>
      cases km with
      | abort =>
        have hwab : handle_event_w w ⟨true, po, svo, rso, tso, .abort⟩
            = ({ w with inFlight := w.inFlight - 1 },
               some (.changeState .idle)) := by
          simp [handle_event_w, hw]
        rw [hwab]
        show w.inFlight - 1 = 0
        omega
      | editor =>
        have hwo : handle_event_w w ⟨true, po, svo, rso, tso, .editor⟩
            = (w, none) := by simp [handle_event_w, hw]
        rw [hwo]; exact h
      | selectTargetKey =>
        have hwo : handle_event_w w ⟨true, po, svo, rso, tso, .selectTargetKey⟩
            = (w, none) := by simp [handle_event_w, hw]
        rw [hwo]; exact h
      | noMapping =>
        have hwo : handle_event_w w ⟨true, po, svo, rso, tso, .noMapping⟩
            = (w, none) := by simp [handle_event_w, hw]
        rw [hwo]; exact h
  case selectTarget =>
    have hI0 : w.inFlight = 0 := by simpa [flightInv, hw] using h
    have hpe : processEvent ctx w ⟨kp, po, svo, rso, tso, km⟩
        = runChain ctx 8 w (handle_event w.state ⟨kp, po, svo, rso, tso, km⟩) := by
      simp [processEvent, handle_event_w, hw]
    rw [hpe, hw]
    cases kp with
    | false => exact h
    | true =>
      rcases tso with _ | tso'
      · exact h
      · cases tso' with
        | abort => show w.inFlight = 0; exact hI0
        | accept s => show w.inFlight = 0; exact hI0

/-- Every reachable world satisfies the in-flight invariant. -/
theorem reachable_inv (ctx : Ctx) (w : World) (h : Reachable ctx w) :
    flightInv w := by
  induction h with
  | init target => rfl
  | event e _ ih => exact processEvent_inv ctx _ e ih
  | complete _ ih => exact completeRun_inv _ ih

/-- C7: in every reachable world of the UI session at most one transport
task is in flight — exactly one in the RunningRequest state and none
otherwise, so a new request can only be initiated outside RunningRequest;
and while in RunningRequest the only accepted user action is the abort
key, which never increases the number of in-flight tasks. -/
theorem c7_theorem (ctx : Ctx) (w : World) (h : Reachable ctx w) :
    w.inFlight ≤ 1
    ∧ (w.state = .runningRequest → w.inFlight = 1)
    ∧ (w.state ≠ .runningRequest → w.inFlight = 0)
    ∧ (∀ (e : EventInput) (i : Intent),
        handle_event .runningRequest e = some i →
          e.keyMapping = .abort ∧ i = .changeState .idle)
    ∧ (w.state = .runningRequest →
        ∀ e : EventInput, (processEvent ctx w e).inFlight ≤ w.inFlight) := by
  have hinv := reachable_inv ctx w h
  refine ⟨?_, ?_, ?_, ?_, ?_⟩
  · rcases hw : w.state with _ | ⟨fp, k, opts, ps⟩ | _ | _ <;>
      simp [flightInv, hw] at hinv <;> omega
  · intro hw
    simpa [flightInv, hw] using hinv
  · intro hw
    rcases hst : w.state with _ | ⟨fp, k, opts, ps⟩ | _ | _ <;>
      simp [flightInv, hst] at hinv <;> first | exact hinv | exact absurd hst hw
  · intro e i he
    rcases e with ⟨kp, po, svo, rso, tso, km⟩
    cases kp with
    | false => exact absurd he (by simp [handle_event])
    | true =>
      cases km with
      | abort =>
        exact ⟨rfl, (Option.some.inj he).symm⟩
      | editor => exact absurd he (by simp [handle_event])
      | selectTargetKey => exact absurd he (by simp [handle_event])
      | noMapping => exact absurd he (by simp [handle_event])
  · intro hw e
    rcases e with ⟨kp, po, svo, rso, tso, km⟩
    have hpe : processEvent ctx w ⟨kp, po, svo, rso, tso, km⟩
        = runChain ctx 8
            ((handle_event_w w ⟨kp, po, svo, rso, tso, km⟩).1)
            ((handle_event_w w ⟨kp, po, svo, rso, tso, km⟩).2) := rfl
    rw [hpe]
    cases kp with
    | false =>
      have hwnone : handle_event_w w ⟨false, po, svo, rso, tso, km⟩ = (w, none) := by
        simp [handle_event_w, hw]
      rw [hwnone]
      exact Nat.le_refl _
    | true =>
      cases km with
      | abort =>
        have hwab : handle_event_w w ⟨true, po, svo, rso, tso, .abort⟩
            = ({ w with inFlight := w.inFlight - 1 },
               some (.changeState .idle)) := by
          simp [handle_event_w, hw]
        rw [hwab]
        show w.inFlight - 1 ≤ w.inFlight
        omega
      | editor =>
        have hwo : handle_event_w w ⟨true, po, svo, rso, tso, .editor⟩
            = (w, none) := by simp [handle_event_w, hw]
        rw [hwo]
        exact Nat.le_refl _
      | selectTargetKey =>
        have hwo : handle_event_w w ⟨true, po, svo, rso, tso, .selectTargetKey⟩
            = (w, none) := by simp [handle_event_w, hw]
        rw [hwo]
        exact Nat.le_refl _
      | noMapping =>
        have hwo : handle_event_w w ⟨true, po, svo, rso, tso, .noMapping⟩
            = (w, none) := by simp [handle_event_w, hw]
        rw [hwo]
        exact Nat.le_refl _

/-- C7 (witness): the initial world of a fresh session. -/
theorem c7_witness :
    Reachable ctxToken (initWorld "default")
    ∧ ((initWorld "default").inFlight ≤ 1
       ∧ ((initWorld "default").state = .runningRequest →
           (initWorld "default").inFlight = 1)
       ∧ ((initWorld "default").state ≠ .runningRequest →
           (initWorld "default").inFlight = 0)
       ∧ (∀ (e : EventInput) (i : Intent),
           handle_event .runningRequest e = some i →
             e.keyMapping = .abort ∧ i = .changeState .idle)
       ∧ ((initWorld "default").state = .runningRequest →
           ∀ e : EventInput,
             (processEvent ctxToken (initWorld "default") e).inFlight
               ≤ (initWorld "default").inFlight)) :=
  ⟨Reachable.init "default",
   c7_theorem ctxToken (initWorld "default") (Reachable.init "default")⟩

end Hitman
